import Mathlib

/-!
Verification of the Mpox dashboard's data core:
the priority scoring model and country aggregation ratios of
`src/views/insights_view.py`, the filter engine of `src/utils/data.py`,
and the column standardization of `src/utils/data.py`.

Numeric modelling: the Python code computes over numpy/pandas float64
values, where division by zero yields NaN (0/0) or ±infinity (x/0), and
Python's builtin `min`/`max` keep the first argument on incomparable (NaN)
operands.  We model such values by `PFloat`: NaN, +inf, -inf or a finite
value, with rationals standing in for finite doubles (all claims concern
exactly representable arithmetic where rounding does not change any
compared outcome).
-/

namespace Mpox

/-- A numpy/pandas float64 result: NaN, +∞, -∞ or a finite value. -/
inductive PFloat where
  | nan : PFloat
  | inf : PFloat
  | ninf : PFloat
  | val : ℚ → PFloat
deriving DecidableEq, Repr

namespace PFloat

/-- IEEE-754 `<` as used by Python comparisons: any comparison with NaN
is false; -∞ is below and +∞ above every finite value. -/
def plt : PFloat → PFloat → Bool
  | .nan, _ => false
  | _, .nan => false
  | .ninf, .ninf => false
  | .ninf, .inf => true
  | .ninf, .val _ => true
  | .inf, _ => false
  | .val _, .inf => true
  | .val _, .ninf => false
  | .val a, .val b => decide (a < b)

/-- Python builtin `min(a, b)`: returns `b` only when `b < a`, so the
first argument is kept when the comparison with NaN is false. -/
def pymin (a b : PFloat) : PFloat := if plt b a then b else a

/-- Python builtin `max(a, b)`: returns `b` only when `a < b`. -/
def pymax (a b : PFloat) : PFloat := if plt a b then b else a

/-- IEEE-754 addition on extended values (as numpy performs it). -/
def padd : PFloat → PFloat → PFloat
  | .nan, _ => .nan
  | _, .nan => .nan
  | .inf, .ninf => .nan
  | .ninf, .inf => .nan
  | .inf, _ => .inf
  | _, .inf => .inf
  | .ninf, _ => .ninf
  | _, .ninf => .ninf
  | .val a, .val b => .val (a + b)

/-- IEEE-754 subtraction on extended values. -/
def psub : PFloat → PFloat → PFloat
  | .nan, _ => .nan
  | _, .nan => .nan
  | .inf, .inf => .nan
  | .ninf, .ninf => .nan
  | .inf, _ => .inf
  | .ninf, _ => .ninf
  | .val _, .inf => .ninf
  | .val _, .ninf => .inf
  | .val a, .val b => .val (a - b)

/-- IEEE-754 multiplication on extended values (0 × ∞ = NaN). -/
def pmul : PFloat → PFloat → PFloat
  | .nan, _ => .nan
  | _, .nan => .nan
  | .inf, .inf => .inf
  | .inf, .ninf => .ninf
  | .ninf, .inf => .ninf
  | .ninf, .ninf => .inf
  | .inf, .val b => if 0 < b then .inf else if b < 0 then .ninf else .nan
  | .ninf, .val b => if 0 < b then .ninf else if b < 0 then .inf else .nan
  | .val a, .inf => if 0 < a then .inf else if a < 0 then .ninf else .nan
  | .val a, .ninf => if 0 < a then .ninf else if a < 0 then .inf else .nan
  | .val a, .val b => .val (a * b)

/-- numpy float division under `errstate(ignore)`:
`0/0 = NaN`, `x/0 = ±∞` by the sign of `x`, finite `/ ±∞ = 0`. -/
def pdiv : PFloat → PFloat → PFloat
  | .nan, _ => .nan
  | _, .nan => .nan
  | .inf, .inf => .nan
  | .inf, .ninf => .nan
  | .ninf, .inf => .nan
  | .ninf, .ninf => .nan
  | .inf, .val b => if 0 ≤ b then .inf else .ninf
  | .ninf, .val b => if 0 ≤ b then .ninf else .inf
  | .val _, .inf => .val 0
  | .val _, .ninf => .val 0
  | .val a, .val b =>
      if b = 0 then (if a = 0 then .nan else if 0 < a then .inf else .ninf)
      else .val (a / b)

/-- `pd.notna`: false exactly on NaN (±∞ count as present values). -/
def notna : PFloat → Bool
  | .nan => false
  | _ => true

end PFloat

/-- The float literal `1e-6` used by `score_row`. -/
def eps : ℚ := 1 / 1000000

/-- One row of the `country_latest` aggregate built in
`insights_tab` (src/views/insights_view.py lines 52-75).  Field shapes
record what the aggregation can produce: `total_cases` is a pandas sum and
hence finite; `cfr_percent` and `allocation_per_1000` are unguarded
divisions that may be NaN or ±∞; `deployed_per_case` and
`surveillance_per_case` divide by `total_cases.replace(0, nan)` and are
either NaN (`none`) or finite; `growth4w` is either absent/NaN (`none`)
or a finite growth value from the weekly-series merge. -/
structure AggRow where
  total_cases : ℚ
  cfr_percent : PFloat
  deployed_per_case : Option ℚ
  surveillance_per_case : Option ℚ
  allocation_per_1000 : PFloat
  growth4w : Option ℚ
deriving DecidableEq, Repr

open PFloat in
/-- `score_row` from src/views/insights_view.py lines 77-93, transcribed
operation by operation.  `r.get(key, default)` returns the stored value
(including NaN) whenever the key exists; the `if pd.notna(...)` guards
around the deployed/surveillance/growth contributions become `match`es on
the `Option` fields (a NaN field skips its `s +=` statement). -/
def score_row (r : AggRow) : PFloat :=
  let s := PFloat.val 0
  let s := padd s (pmul (pymin (pdiv (.val r.total_cases) (.val 10000)) (.val 1)) (.val 25))
  let s := padd s (pmul (pymin (pdiv r.cfr_percent (.val 5)) (.val 1)) (.val 25))
  let s := match r.deployed_per_case with
    | none => s
    | some dep => padd s (.val (min (1 / max dep eps) 10 / 10 * 15))
  let s := match r.surveillance_per_case with
    | none => s
    | some surv => padd s (.val (min (1 / max surv eps) 10 / 10 * 15))
  let s := if r.allocation_per_1000.notna then
      padd s (pmul (pdiv (pymax (.val 0)
        (psub (.val (3/2)) (pymin (pdiv r.allocation_per_1000 (.val 1000)) (.val 3))))
        (.val (3/2))) (.val 10))
    else s
  let s := match r.growth4w with
    | none => s
    | some g => padd s (.val (max 0 (min g 1) * 10))
  pymax (.val 0) (pymin (.val 100) s)

/-! ### Characterizing `score_row` as a rational-valued function

`score_row` always returns a finite value; the helpers below give that
value componentwise, and `score_row_eq` proves the characterization by
case analysis on the extended-float shapes of `cfr_percent` and
`allocation_per_1000`. -/

open PFloat

/-- Case-burden contribution: `min(total_cases/10000, 1) * 25`. -/
def contrib_cases (tc : ℚ) : ℚ := min (tc / 10000) 1 * 25

/-- CFR contribution of `score_row` as a rational: an unknown (NaN) CFR
is excluded here (it makes the whole accumulator NaN), +∞ saturates to
25, -∞ drives the accumulator to -∞ (also handled separately). -/
def contrib_cfr : PFloat → ℚ
  | .val q => min (q / 5) 1 * 25
  | .inf => 25
  | _ => 0

/-- Workforce-gap contribution: 0 when unknown. -/
def contrib_dep : Option ℚ → ℚ
  | none => 0
  | some dep => min (1 / max dep eps) 10 / 10 * 15

/-- Surveillance-gap contribution: 0 when unknown. -/
def contrib_surv : Option ℚ → ℚ
  | none => 0
  | some surv => min (1 / max surv eps) 10 / 10 * 15

/-- Allocation-equity contribution: 0 when unknown, and also 0 at +∞
(the formula saturates); -∞ is excluded here (it contributes +∞). -/
def contrib_alloc : PFloat → ℚ
  | .val q => max 0 (3/2 - min (q / 1000) 3) / (3/2) * 10
  | _ => 0

/-- Growth-trend contribution: 0 when unknown. -/
def contrib_growth : Option ℚ → ℚ
  | none => 0
  | some g => max 0 (min g 1) * 10

/-- Final clamp `max(0, min(100, s))` on rationals. -/
def clampQ (q : ℚ) : ℚ := max 0 (min 100 q)

/-- The finite value `score_row` returns: 100 when the accumulator goes
NaN (unknown CFR) or +∞ (allocation -∞), 0 when it goes -∞ (CFR -∞),
otherwise the clamped sum of the six contributions. -/
def scoreQ (r : AggRow) : ℚ :=
  if r.cfr_percent = .nan ∨ r.allocation_per_1000 = .ninf then 100
  else if r.cfr_percent = .ninf then 0
  else clampQ (contrib_cases r.total_cases + contrib_cfr r.cfr_percent +
    contrib_dep r.deployed_per_case + contrib_surv r.surveillance_per_case +
    contrib_alloc r.allocation_per_1000 + contrib_growth r.growth4w)

/-- The six accumulation terms of `score_row`, named for the proofs:
each is the exact expression added to `s` (a skipped `s +=` is the
identity `+ 0.0`). -/
def cases_term (tc : ℚ) : PFloat :=
  pmul (pymin (pdiv (.val tc) (.val 10000)) (.val 1)) (.val 25)

/-- CFR accumulation term of `score_row`. -/
def cfr_term (c : PFloat) : PFloat :=
  pmul (pymin (pdiv c (.val 5)) (.val 1)) (.val 25)

/-- Workforce accumulation term of `score_row` (0 when the NaN guard
skips the `s +=`). -/
def dep_term : Option ℚ → PFloat
  | none => .val 0
  | some dep => .val (min (1 / max dep eps) 10 / 10 * 15)

/-- Surveillance accumulation term of `score_row`. -/
def surv_term : Option ℚ → PFloat
  | none => .val 0
  | some surv => .val (min (1 / max surv eps) 10 / 10 * 15)

/-- Allocation-equity accumulation term of `score_row`. -/
def alloc_term (a : PFloat) : PFloat :=
  if a.notna then
    pmul (pdiv (pymax (.val 0)
      (psub (.val (3/2)) (pymin (pdiv a (.val 1000)) (.val 3))))
      (.val (3/2))) (.val 10)
  else .val 0

/-- Growth accumulation term of `score_row`. -/
def growth_term : Option ℚ → PFloat
  | none => .val 0
  | some g => .val (max 0 (min g 1) * 10)

/-- Scoring as the spec words it (§4.4, §7): the same six weighted
sub-scores, with every unknown component contributing 0, summed in ℚ and
clamped to [0, 100].  Reference model for the refinement claims, written
from the spec's words, not from the code. -/
def specScore (r : AggRow) : ℚ :=
  clampQ (contrib_cases r.total_cases + contrib_cfr r.cfr_percent +
    contrib_dep r.deployed_per_case + contrib_surv r.surveillance_per_case +
    contrib_alloc r.allocation_per_1000 + contrib_growth r.growth4w)

/-- The spec §8 worked example row: total_cases=10000, cfr_percent=5,
deployed_per_case=2, surveillance_per_case=0.05, allocation_per_1000=1500,
growth4w=0.2. -/
def exampleRow : AggRow :=
  ⟨10000, .val 5, some 2, some (1/20), .val 1500, some (1/5)⟩

/-- A country aggregate with zero cases and zero deaths: its
`cfr_percent` is 0/0 = NaN (src/views/insights_view.py line 65), the
other components are as in `exampleRow`. -/
def nanCfrRow : AggRow := ⟨0, .nan, some 2, some (1/20), .val 1500, some (1/5)⟩

/-- `country_latest["cfr_percent"]` (src/views/insights_view.py line 65):
`(total_deaths / total_cases) * 100` with no division guard. -/
def agg_cfr_percent (total_deaths total_cases : ℚ) : PFloat :=
  pmul (pdiv (.val total_deaths) (.val total_cases)) (.val 100)

/-- `country_latest["deployed_per_case"]` (line 66):
`deployed_chws / total_cases.replace(0, np.nan)`. -/
def agg_deployed_per_case (deployed_chws total_cases : ℚ) : PFloat :=
  pdiv (.val deployed_chws) (if total_cases = 0 then .nan else .val total_cases)

/-- `country_latest["surveillance_per_case"]` (line 67):
`(sites + labs) / total_cases.replace(0, np.nan)`. -/
def agg_surveillance_per_case (sites labs total_cases : ℚ) : PFloat :=
  pdiv (.val (sites + labs)) (if total_cases = 0 then .nan else .val total_cases)

/-- `country_latest["allocation_per_1000"]` (line 69):
`(allocated / total_cases) * 1000` with no division guard. -/
def agg_allocation_per_1000 (allocated total_cases : ℚ) : PFloat :=
  pmul (pdiv (.val allocated) (.val total_cases)) (.val 1000)

/-- `country_latest["uptake_rate_pct"]` (line 68):
`(administered / allocated).replace([inf, -inf], nan) * 100`. -/
def agg_uptake_rate_pct (administered allocated : ℚ) : PFloat :=
  pmul (match pdiv (.val administered) (.val allocated) with
    | .inf => .nan
    | .ninf => .nan
    | x => x) (.val 100)

/-- `out["cfr_percent"]` in `_country_summary_cached`
(src/views/recommendations.py line 30): `(total_deaths / total_cases) *
100`, no division guard (`out.get` returns the existing column). -/
def rec_cfr_percent (total_deaths total_cases : ℚ) : PFloat :=
  pmul (pdiv (.val total_deaths) (.val total_cases)) (.val 100)

/-- `out["deployed_per_case"]` (src/views/recommendations.py line 31):
`deployed_chws / total_cases` — unlike the insights-view variant there
is no `replace(0, nan)` guard. -/
def rec_deployed_per_case (deployed_chws total_cases : ℚ) : PFloat :=
  pdiv (.val deployed_chws) (.val total_cases)

/-- `out["surveillance_per_case"]` (src/views/recommendations.py line
32): `(sites + labs) / total_cases`, no guard. -/
def rec_surveillance_per_case (sites labs total_cases : ℚ) : PFloat :=
  pdiv (.val (sites + labs)) (.val total_cases)

/-- `out["allocation_per_1000"]` (src/views/recommendations.py line 34):
`(allocated / total_cases) * 1000`, no guard. -/
def rec_allocation_per_1000 (allocated total_cases : ℚ) : PFloat :=
  pmul (pdiv (.val allocated) (.val total_cases)) (.val 1000)

/-- 4-week growth for one country's weekly case series, ordered by week
(src/views/insights_view.py lines 73-74):
`weekly.groupby("country").tail(4)` keeps the last up-to-4 observations,
then `(s.iloc[-1] - s.iloc[0]) / max(s.iloc[0], 1)` is applied to every
country present in `weekly` (each has at least one row; absent countries
get NaN from the left merge, modelled by the empty list). -/
def growth4w (s : List ℚ) : Option ℚ :=
  match s.drop (s.length - 4) with
  | [] => none
  | x :: xs => some (((x :: xs).getLastD 0 - x) / max x 1)

/-- Modelled from the spec (§4.3): growth over the last 4 weekly
observations when at least 4 exist, otherwise unknown.  Reference model
for claim C4, written from the spec's words. -/
def growth4w_spec (s : List ℚ) : Option ℚ :=
  if 4 ≤ s.length then
    let t := s.drop (s.length - 4)
    some ((t.getLastD 0 - t.headD 0) / max (t.headD 0) 1)
  else none

/-- Comparison of two known-finite scores: true only when both floats
are finite and ordered. -/
def PFloat.fle (x y : PFloat) : Bool :=
  match x, y with
  | .val a, .val b => decide (a ≤ b)
  | _, _ => false

/-! ### Filter engine (src/utils/data.py `filter_data`, lines 82-99) -/

/-- One row of the normalized table, restricted to the columns
`filter_data` inspects.  `report_date` is a timestamp (`none` models
NaT, for which `Series.between` is false). -/
structure Row where
  report_date : Option Int
  country : String
  clade : String
  surveillance_notes : String
deriving DecidableEq, Repr

/-- A filter selection: `none`/empty list mean "no restriction on this
dimension" (Python truthiness of the `if date_range` / `if countries`
guards). -/
structure Selection where
  date_range : Option (Int × Int)
  countries : List String
  clades : List String
  notes : List String
deriving DecidableEq, Repr

/-- `df["report_date"].between(start, end, inclusive="both")` for one
row: inclusive on both ends, false on NaT. -/
def datePass (dr : Option (Int × Int)) (d : Option Int) : Bool :=
  match dr with
  | none => true
  | some (s, e) =>
      match d with
      | none => false
      | some x => decide (s ≤ x) && decide (x ≤ e)

/-- `df[col].isin(allowed)` for one row, skipped when the selection list
is empty (falsy). -/
def memberPass (allowed : List String) (v : String) : Bool :=
  if allowed.isEmpty then true else allowed.contains v

/-- The conjunctive row mask accumulated by `filter_data`. -/
def rowMask (sel : Selection) (r : Row) : Bool :=
  datePass sel.date_range r.report_date &&
  memberPass sel.countries r.country &&
  memberPass sel.clades r.clade &&
  memberPass sel.notes r.surveillance_notes

/-- `filter_data(df, date_range, countries, clades, notes)`:
`df[mask].copy()` keeps exactly the rows satisfying the mask, in order
(the `.copy()` makes the result independent of the base table; the
embedding is pure, so only the row selection is modelled). -/
def filter_data (df : List Row) (sel : Selection) : List Row :=
  df.filter (rowMask sel)

/-- Dimension-wise widening of a selection: a dimension widens to the
empty selection (no restriction) or to a superset of a non-empty list;
a date range widens to `none` or to a containing interval. -/
def dateWider : Option (Int × Int) → Option (Int × Int) → Prop
  | _, none => True
  | none, some _ => False
  | some (s, e), some (s', e') => s' ≤ s ∧ e ≤ e'

/-- Widening for a membership dimension. -/
def listWider (l l' : List String) : Prop :=
  l' = [] ∨ (l ≠ [] ∧ ∀ x ∈ l, x ∈ l')

/-- `sel'` allows at least everything `sel` allows, dimension by
dimension. -/
def SelectionWider (sel sel' : Selection) : Prop :=
  dateWider sel.date_range sel'.date_range ∧
  listWider sel.countries sel'.countries ∧
  listWider sel.clades sel'.clades ∧
  listWider sel.notes sel'.notes

/-- The empty selection: no date range, no countries, no clades, no
notes. -/
def emptySelection : Selection := ⟨none, [], [], []⟩

/-! ### Column standardization (src/utils/data.py lines 9-39, 66-79) -/

/-- `EXPECTED_COLUMNS`: canonical field name → ordered alias list. -/
def EXPECTED_COLUMNS : List (String × List String) :=
  [("country", ["country", "Country"]),
   ("report_date", ["report_date", "date", "Date", "reportDate"]),
   ("confirmed_cases", ["confirmed_cases", "Confirmed", "confirmed", "cases"]),
   ("deaths", ["deaths", "Deaths", "fatalities"]),
   ("vaccinations_administered",
     ["vaccinations_administered", "vax_administered", "administered"]),
   ("active_surveillance_sites",
     ["active_surveillance_sites", "active_sites", "surveillance_sites"]),
   ("suspected_cases", ["suspected_cases", "suspected"]),
   ("case_fatality_rate", ["case_fatality_rate", "cfr", "cfr_percent"]),
   ("clade", ["clade", "strain"]),
   ("weekly_new_cases", ["weekly_new_cases", "weekly_cases"]),
   ("vaccine_dose_allocated", ["vaccine_dose_allocated", "allocated"]),
   ("vaccine_dose_deployed", ["vaccine_dose_deployed", "deployed"]),
   ("vaccine_coverage", ["vaccine_coverage", "coverage_percent", "coverage"]),
   ("testing_laboratries",
     ["testing_laboratries", "testing_labs", "laboratories", "labs"]),
   ("trained_chws", ["trained_chws", "trained_chw"]),
   ("deployed_chws", ["deployed_chws", "deployed_chw"]),
   ("surveillance_notes",
     ["surveillance_notes", "notes", "surveillance_note"])]

/-- Python `str.lower()` on ASCII column names, character by
character. -/
def lowerStr (s : String) : String := String.mk (s.data.map Char.toLower)

/-- The dict `{c.lower(): c for c in df.columns}`: per lower-cased key
the LAST original column wins (dict-comprehension overwrite). -/
def lookupLower (cols : List String) (k : String) : Option String :=
  ((cols.map (fun c => (lowerStr c, c))).filter
    (fun p => p.1 == k)).getLast? |>.map Prod.snd

/-- `_standardize_columns`' rename mapping: for each canonical field the
first alias whose lower-case form occurs among the lower-cased input
columns contributes (original column ↦ canonical). -/
def standardize_mapping (cols : List String) : List (String × String) :=
  EXPECTED_COLUMNS.foldl (fun acc p =>
    match p.2.find? (fun cand => (lookupLower cols (lowerStr cand)).isSome) with
    | none => acc
    | some cand =>
        match lookupLower cols (lowerStr cand) with
        | none => acc
        | some orig => acc ++ [(orig, p.1)]) []

/-- `df.rename(columns=mapping)` applied to one column name. -/
def renameWith (m : List (String × String)) (c : String) : String :=
  match (m.filter (fun p => p.1 == c)).head? with
  | some p => p.2
  | none => c

/-- The column list after `_standardize_columns`. -/
def standardize_columns (cols : List String) : List String :=
  cols.map (renameWith (standardize_mapping cols))

/-- The guard of the derived-CFR step in `load_data` (lines 77-78): CFR
is derived only when `case_fatality_rate` is absent and both `deaths`
and `confirmed_cases` are present after standardization. -/
def derives_cfr (cols : List String) : Bool :=
  !cols.contains "case_fatality_rate" &&
  cols.contains "deaths" && cols.contains "confirmed_cases"

lemma padd_val_zero (s : PFloat) : padd s (.val 0) = s := by
  cases s <;> simp [padd]

lemma pymin_val_val (a b : ℚ) : pymin (.val a) (.val b) = .val (min a b) := by
  unfold pymin plt
  rcases lt_or_le b a with h | h
  · simp [h, min_eq_right h.le]
  · simp [not_lt.2 h, min_eq_left h]

lemma pymax_val_val (a b : ℚ) : pymax (.val a) (.val b) = .val (max a b) := by
  unfold pymax plt
  rcases lt_or_le a b with h | h
  · simp [h, max_eq_right h.le]
  · simp [not_lt.2 h, max_eq_left h]

lemma pymin_inf_val (b : ℚ) : pymin .inf (.val b) = .val b := by
  simp [pymin, plt]

lemma pymin_ninf_val (b : ℚ) : pymin .ninf (.val b) = .ninf := by
  simp [pymin, plt]

lemma pymin_nan_val (b : ℚ) : pymin .nan (.val b) = .nan := by
  simp [pymin, plt]

lemma pymin_val_nan (a : ℚ) : pymin (.val a) .nan = .val a := by
  simp [pymin, plt]

lemma pymin_val_inf (a : ℚ) : pymin (.val a) .inf = .val a := by
  simp [pymin, plt]

lemma pymin_val_ninf (a : ℚ) : pymin (.val a) .ninf = .ninf := by
  simp [pymin, plt]

lemma pymax_val_nan (a : ℚ) : pymax (.val a) .nan = .val a := by
  simp [pymax, plt]

lemma pymax_val_inf (a : ℚ) : pymax (.val a) .inf = .inf := by
  simp [pymax, plt]

lemma pymax_val_ninf (a : ℚ) : pymax (.val a) .ninf = .val a := by
  simp [pymax, plt]

lemma padd_val_val (a b : ℚ) : padd (.val a) (.val b) = .val (a + b) := rfl

lemma padd_val_nan (a : ℚ) : padd (.val a) .nan = .nan := rfl

lemma padd_val_inf (a : ℚ) : padd (.val a) .inf = .inf := rfl

lemma padd_val_ninf (a : ℚ) : padd (.val a) .ninf = .ninf := rfl

lemma padd_nan_val (b : ℚ) : padd .nan (.val b) = .nan := rfl

lemma padd_nan_inf : padd .nan .inf = .nan := rfl

lemma padd_inf_val (b : ℚ) : padd .inf (.val b) = .inf := rfl

lemma padd_ninf_val (b : ℚ) : padd .ninf (.val b) = .ninf := rfl

lemma padd_ninf_inf : padd .ninf .inf = .nan := rfl

/-- `score_row` is the clamped left-to-right accumulation of its six
terms (skipped statements become `+ 0.0`, the identity on every float). -/
lemma score_row_unfold (tc : ℚ) (cfr : PFloat) (dep surv : Option ℚ)
    (alloc : PFloat) (g : Option ℚ) :
    score_row ⟨tc, cfr, dep, surv, alloc, g⟩ =
    pymax (.val 0) (pymin (.val 100)
      (padd (padd (padd (padd (padd (padd (.val 0) (cases_term tc))
        (cfr_term cfr)) (dep_term dep)) (surv_term surv))
        (alloc_term alloc)) (growth_term g))) := by
  unfold score_row cases_term cfr_term alloc_term
  cases dep <;> cases surv <;> cases g <;> cases h : alloc.notna <;>
    simp only [h, dep_term, surv_term, growth_term, padd_val_zero,
      if_true, if_false, ite_true, ite_false, Bool.false_eq_true]

/-- Case-burden term of the accumulation. -/
lemma t_cases (tc : ℚ) : cases_term tc = .val (contrib_cases tc) := by
  have h : (10000:ℚ) ≠ 0 := by norm_num
  simp [cases_term, pdiv, h, pymin_val_val, pmul, contrib_cases]

/-- CFR term at a finite CFR value. -/
lemma t_cfr_val (q : ℚ) : cfr_term (.val q) = .val (contrib_cfr (.val q)) := by
  have h : (5:ℚ) ≠ 0 := by norm_num
  simp [cfr_term, pdiv, h, pymin_val_val, pmul, contrib_cfr]

/-- CFR term at +∞ saturates to 25. -/
lemma t_cfr_inf : cfr_term .inf = .val 25 := by
  norm_num [cfr_term, pdiv, pymin_inf_val, pmul]

/-- CFR term at -∞ is -∞. -/
lemma t_cfr_ninf : cfr_term .ninf = .ninf := by
  norm_num [cfr_term, pdiv, pymin_ninf_val, pmul]

/-- CFR term at NaN is NaN. -/
lemma t_cfr_nan : cfr_term .nan = .nan := rfl

/-- Workforce term is always the finite contribution. -/
lemma t_dep (o : Option ℚ) : dep_term o = .val (contrib_dep o) := by
  cases o <;> rfl

/-- Surveillance term is always the finite contribution. -/
lemma t_surv (o : Option ℚ) : surv_term o = .val (contrib_surv o) := by
  cases o <;> rfl

/-- Growth term is always the finite contribution. -/
lemma t_growth (o : Option ℚ) : growth_term o = .val (contrib_growth o) := by
  cases o <;> rfl

/-- Allocation term at a finite value. -/
lemma t_alloc_val (q : ℚ) :
    alloc_term (.val q) = .val (contrib_alloc (.val q)) := by
  have h1000 : (1000:ℚ) ≠ 0 := by norm_num
  have h32 : (3/2:ℚ) ≠ 0 := by norm_num
  simp [alloc_term, notna, pdiv, h1000, h32, pymin_val_val, psub,
    pymax_val_val, pmul, contrib_alloc]

/-- Allocation term at +∞ saturates to 0. -/
lemma t_alloc_inf : alloc_term .inf = .val 0 := by
  norm_num [alloc_term, notna, pdiv, pymin_inf_val, psub, pymax_val_val,
    pmul]

/-- Allocation term at -∞ blows up to +∞. -/
lemma t_alloc_ninf : alloc_term .ninf = .inf := by
  norm_num [alloc_term, notna, pdiv, pymin_ninf_val, psub, pymax_val_inf,
    pmul]

/-- Allocation term at NaN is skipped, hence 0. -/
lemma t_alloc_nan : alloc_term .nan = .val 0 := rfl

lemma nan_ne_ninf : PFloat.nan ≠ PFloat.ninf := fun h => PFloat.noConfusion h

lemma ninf_ne_nan : PFloat.ninf ≠ PFloat.nan := fun h => PFloat.noConfusion h

lemma inf_ne_nan : PFloat.inf ≠ PFloat.nan := fun h => PFloat.noConfusion h

lemma inf_ne_ninf : PFloat.inf ≠ PFloat.ninf := fun h => PFloat.noConfusion h

lemma val_ne_nan (a : ℚ) : PFloat.val a ≠ PFloat.nan :=
  fun h => PFloat.noConfusion h

lemma val_ne_ninf (a : ℚ) : PFloat.val a ≠ PFloat.ninf :=
  fun h => PFloat.noConfusion h

set_option maxHeartbeats 1600000 in
/-- `score_row` always returns the finite value `scoreQ`. -/
lemma score_row_eq (r : AggRow) : score_row r = .val (scoreQ r) := by
  obtain ⟨tc, cfr, dep, surv, alloc, g⟩ := r
  rw [score_row_unfold, t_cases, t_dep, t_surv, t_growth]
  cases cfr <;> cases alloc <;>
    norm_num [t_cfr_val, t_cfr_inf, t_cfr_ninf, t_cfr_nan, t_alloc_val,
      t_alloc_inf, t_alloc_ninf, t_alloc_nan, padd_val_val, padd_val_nan,
      padd_val_inf, padd_val_ninf, padd_nan_val, padd_nan_inf,
      padd_inf_val, padd_ninf_val, padd_ninf_inf, pymin_val_nan,
      pymin_val_inf, pymin_val_ninf, pymin_val_val, pymax_val_val,
      pymax_val_nan, pymax_val_inf, pymax_val_ninf, scoreQ, clampQ,
      contrib_cfr, contrib_alloc, nan_ne_ninf, ninf_ne_nan, inf_ne_nan,
      inf_ne_ninf, val_ne_nan, val_ne_ninf, add_assoc]

lemma fle_val_val (a b : ℚ) :
    PFloat.fle (.val a) (.val b) = true ↔ a ≤ b := by
  simp [PFloat.fle]

/-- `clampQ` is monotone. -/
lemma clampQ_mono {x y : ℚ} (h : x ≤ y) : clampQ x ≤ clampQ y :=
  max_le_max le_rfl (min_le_min le_rfl h)

/-- The CFR contribution is monotone in a finite CFR value. -/
lemma contrib_cfr_mono {a b : ℚ} (h : a ≤ b) :
    contrib_cfr (.val a) ≤ contrib_cfr (.val b) := by
  unfold contrib_cfr
  have h5 : a / 5 ≤ b / 5 := by linarith
  exact mul_le_mul_of_nonneg_right (min_le_min h5 le_rfl) (by norm_num)

/-- The workforce-gap contribution is antitone in a known
`deployed_per_case`. -/
lemma contrib_dep_anti {c d : ℚ} (h : c ≤ d) :
    contrib_dep (some d) ≤ contrib_dep (some c) := by
  unfold contrib_dep
  have hc : (0:ℚ) < max c eps :=
    lt_of_lt_of_le (by norm_num [eps]) (le_max_right c eps)
  have hmax : max c eps ≤ max d eps := max_le_max h le_rfl
  have hinv : 1 / max d eps ≤ 1 / max c eps := one_div_le_one_div_of_le hc hmax
  have hmin : min (1 / max d eps) 10 ≤ min (1 / max c eps) 10 :=
    min_le_min hinv le_rfl
  have hdiv : min (1 / max d eps) 10 / 10 ≤ min (1 / max c eps) 10 / 10 :=
    (div_le_div_iff_of_pos_right (by norm_num)).mpr hmin
  exact mul_le_mul_of_nonneg_right hdiv (by norm_num)

/-! ### Claim theorems -/

/-- C1: the priority scoring function, applied to an aggregate row with
total_cases=10000, cfr_percent=5, deployed_per_case=2,
surveillance_per_case=0.05, allocation_per_1000=1500, growth4w=0.2,
returns exactly 67.75 (contributions 25 + 25 + 0.75 + 15 + 0 + 2). -/
theorem C1_score_example : score_row exampleRow = .val 67.75 := by
  rw [score_row_eq]
  norm_num [exampleRow, scoreQ, clampQ, contrib_cases, contrib_cfr,
    contrib_dep, contrib_surv, contrib_alloc, contrib_growth, eps,
    min_def, max_def, val_ne_nan, val_ne_ninf]

/-- C2 counterexample: for a country group with total_cases = 0, the
insights-view aggregation gives +∞ (not an unknown NaN) for
`cfr_percent` with total_deaths = 1 and for `allocation_per_1000` with
allocated = 1, and the recommendations-tab aggregation gives +∞ for
`deployed_per_case` with deployed_chws = 3 — so at these inputs it is
false that all four ratios are unknown and none equals ±infinity. -/
theorem C2_counterexample :
    agg_cfr_percent 1 0 = .inf ∧ agg_cfr_percent 1 0 ≠ .nan ∧
    agg_allocation_per_1000 1 0 = .inf ∧ agg_allocation_per_1000 1 0 ≠ .nan ∧
    rec_deployed_per_case 3 0 = .inf ∧ rec_deployed_per_case 3 0 ≠ .nan := by
  norm_num [agg_cfr_percent, agg_allocation_per_1000,
    rec_deployed_per_case, pdiv, pmul, inf_ne_nan]

/-- C2 amended: for a country group with total_cases = 0 no exception is
raised, no ratio equals 0, and the ratios are NaN or +∞ as follows.  In
the insights-view aggregation (src/views/insights_view.py lines 64-69),
`deployed_per_case` and `surveillance_per_case` are always unknown (NaN,
thanks to `replace(0, nan)`), while the unguarded `cfr_percent` and
`allocation_per_1000` are unknown only when their numerator is also 0
and are +∞ when it is positive.  In the recommendations-tab aggregation
(`_country_summary_cached`, src/views/recommendations.py lines 29-35),
which has no guards at all, each of the four ratios is unknown exactly
when its numerator is 0 and +∞ when the numerator is positive. -/
theorem C2_amended (deaths dep sites labs alloc tc : ℚ) (h : tc = 0) :
    (agg_deployed_per_case dep tc = .nan ∧
     agg_surveillance_per_case sites labs tc = .nan ∧
     (deaths = 0 → agg_cfr_percent deaths tc = .nan) ∧
     (0 < deaths → agg_cfr_percent deaths tc = .inf) ∧
     (alloc = 0 → agg_allocation_per_1000 alloc tc = .nan) ∧
     (0 < alloc → agg_allocation_per_1000 alloc tc = .inf)) ∧
    ((deaths = 0 → rec_cfr_percent deaths tc = .nan) ∧
     (0 < deaths → rec_cfr_percent deaths tc = .inf) ∧
     (dep = 0 → rec_deployed_per_case dep tc = .nan) ∧
     (0 < dep → rec_deployed_per_case dep tc = .inf) ∧
     (sites + labs = 0 → rec_surveillance_per_case sites labs tc = .nan) ∧
     (0 < sites + labs → rec_surveillance_per_case sites labs tc = .inf) ∧
     (alloc = 0 → rec_allocation_per_1000 alloc tc = .nan) ∧
     (0 < alloc → rec_allocation_per_1000 alloc tc = .inf)) := by
  subst h
  refine ⟨⟨rfl, rfl, ?_, ?_, ?_, ?_⟩, ?_, ?_, ?_, ?_, ?_, ?_, ?_, ?_⟩
  · rintro rfl; rfl
  · intro hd
    simp [agg_cfr_percent, pdiv, pmul, hd.ne', hd]
  · rintro rfl; rfl
  · intro ha
    simp [agg_allocation_per_1000, pdiv, pmul, ha.ne', ha]
  · rintro rfl; rfl
  · intro hd
    simp [rec_cfr_percent, pdiv, pmul, hd.ne', hd]
  · rintro rfl; rfl
  · intro hd
    simp [rec_deployed_per_case, pdiv, hd.ne', hd]
  · intro hs
    simp [rec_surveillance_per_case, pdiv, hs]
  · intro hs
    simp [rec_surveillance_per_case, pdiv, hs.ne', hs]
  · rintro rfl; rfl
  · intro ha
    simp [rec_allocation_per_1000, pdiv, pmul, ha.ne', ha]

/-- C2 witness: the amended theorem evaluated at concrete groups with
total_cases = 0, covering both aggregation sites and both numerator
cases. -/
theorem C2_amended_witness :
    agg_deployed_per_case 2 0 = .nan ∧
    agg_surveillance_per_case 1 1 0 = .nan ∧
    agg_cfr_percent 0 0 = .nan ∧ agg_cfr_percent 1 0 = .inf ∧
    agg_allocation_per_1000 0 0 = .nan ∧
    rec_cfr_percent 1 0 = .inf ∧ rec_deployed_per_case 0 0 = .nan ∧
    rec_deployed_per_case 2 0 = .inf ∧
    rec_surveillance_per_case 1 1 0 = .inf ∧
    rec_allocation_per_1000 0 0 = .nan := by
  obtain ⟨⟨-, -, p3, -, p5, -⟩, -, -, pb3, -, -, pb6, pb7, -⟩ :=
    C2_amended 0 0 1 1 0 0 rfl
  obtain ⟨⟨q1, q2, -, q4, -, -⟩, -, qb2, -, qb4, -, -, -, -⟩ :=
    C2_amended 1 2 1 1 0 0 rfl
  exact ⟨q1, q2, p3 rfl, q4 (by norm_num), p5 rfl, qb2 (by norm_num),
    pb3 rfl, qb4 (by norm_num), pb6 (by norm_num), pb7 rfl⟩

/-- C3 counterexample: on a row whose `cfr_percent` is unknown (NaN) the
scoring function returns 100 — not the 71/4 = 17.75 that treating the
unknown CFR as a 0 contribution (spec model `specScore`) would give. -/
theorem C3_counterexample :
    score_row nanCfrRow = .val 100 ∧ specScore nanCfrRow = 71/4 ∧
    (100 : ℚ) ≠ 71/4 := by
  rw [score_row_eq]
  norm_num [nanCfrRow, scoreQ, specScore, clampQ, contrib_cases,
    contrib_cfr, contrib_dep, contrib_surv, contrib_alloc, contrib_growth,
    eps, min_def, max_def]

/-- C3 amended: unknown `deployed_per_case`, `surveillance_per_case`,
`allocation_per_1000` and `growth4w` do contribute 0 (the score equals
the spec's unknown-is-0 model whenever `cfr_percent` is known), but an
unknown (NaN) `cfr_percent` makes the whole accumulated sum NaN and the
final `max(0, min(100, s))` then returns exactly 100.  In either case the
result is a finite value, never ±infinity and never an exception.
(The degenerate -∞ shapes, which require negative input sums, are
excluded by hypothesis.) -/
theorem C3_amended (r : AggRow) :
    (r.cfr_percent = .nan → score_row r = .val 100) ∧
    (r.cfr_percent ≠ .nan → r.cfr_percent ≠ .ninf →
      r.allocation_per_1000 ≠ .ninf → score_row r = .val (specScore r)) := by
  constructor
  · intro h
    rw [score_row_eq]
    simp [scoreQ, h]
  · intro h1 h2 h3
    rw [score_row_eq]
    simp [scoreQ, specScore, h1, h2, h3]

/-- C3 witness: the amended theorem at `nanCfrRow` (unknown CFR → 100)
and at `exampleRow` (known CFR → the unknown-is-0 spec model). -/
theorem C3_amended_witness :
    score_row nanCfrRow = .val 100 ∧
    score_row exampleRow = .val (specScore exampleRow) :=
  ⟨(C3_amended nanCfrRow).1 rfl,
    (C3_amended exampleRow).2 (val_ne_nan 5) (val_ne_ninf 5) (val_ne_ninf 1500)⟩

/-- C5: for every aggregate row — whatever the shapes of its components,
including unknown (NaN) and ±∞ ratios — `score_row` returns a finite
value `scoreQ r` with 0 ≤ scoreQ r ≤ 100. -/
theorem C5_score_bounded (r : AggRow) :
    score_row r = .val (scoreQ r) ∧ 0 ≤ scoreQ r ∧ scoreQ r ≤ 100 := by
  refine ⟨score_row_eq r, ?_, ?_⟩ <;>
    · unfold scoreQ clampQ
      split_ifs <;> norm_num [le_max_iff, max_le_iff, min_le_iff]

/-- C6: holding every other component fixed, raising `cfr_percent` from
a to b with a ≤ b ≤ 5 never decreases the priority score, and raising
`deployed_per_case` from c to d with c ≤ d never increases it (both
scores are finite and compare by `PFloat.fle`). -/
theorem C6_score_monotonic (r : AggRow) (a b c d : ℚ)
    (hab : a ≤ b) (hb5 : b ≤ 5) (hcd : c ≤ d) :
    PFloat.fle (score_row { r with cfr_percent := .val a })
      (score_row { r with cfr_percent := .val b }) = true ∧
    PFloat.fle (score_row { r with deployed_per_case := some d })
      (score_row { r with deployed_per_case := some c }) = true := by
  rw [score_row_eq, score_row_eq, score_row_eq, score_row_eq,
    fle_val_val, fle_val_val]
  constructor
  · unfold scoreQ
    simp only [val_ne_nan, false_or]
    by_cases halloc : r.allocation_per_1000 = .ninf
    · simp [halloc]
    · simp only [halloc, if_false, val_ne_ninf, ite_false]
      exact clampQ_mono (by
        have := contrib_cfr_mono hab
        gcongr)
  · unfold scoreQ
    by_cases hnan : r.cfr_percent = .nan
    · simp [hnan]
    · by_cases halloc : r.allocation_per_1000 = .ninf
      · simp [halloc]
      · by_cases hninf : r.cfr_percent = .ninf
        · simp [hnan, halloc, hninf]
        · simp only [hnan, halloc, hninf, false_or, if_false, ite_false]
          exact clampQ_mono (by
            have := contrib_dep_anti hcd
            gcongr)

/-- C6 witness: the monotonicity theorem at the example row with CFR
raised from 1 to 2 and deployed-per-case from 1 to 2. -/
theorem C6_witness :
    PFloat.fle (score_row { exampleRow with cfr_percent := .val 1 })
      (score_row { exampleRow with cfr_percent := .val 2 }) = true ∧
    PFloat.fle (score_row { exampleRow with deployed_per_case := some 2 })
      (score_row { exampleRow with deployed_per_case := some 1 }) = true :=
  C6_score_monotonic exampleRow 1 2 1 2 (by norm_num) (by norm_num)
    (by norm_num)

/-- C4 counterexample: a country with only 2 weekly observations [5, 10]
gets growth4w = (10 - 5) / max(5, 1) = 1 from the code, while the claim
says growth must be unknown for countries with fewer than 4
observations (the spec model `growth4w_spec` gives none). -/
theorem C4_counterexample :
    growth4w [5, 10] = some 1 ∧ growth4w_spec [5, 10] = none ∧
    growth4w [5, 10] ≠ growth4w_spec [5, 10] := by
  have h1 : growth4w [5, 10] = some 1 := by
    norm_num [growth4w, List.getLastD]
  refine ⟨h1, rfl, ?_⟩
  rw [h1, show growth4w_spec [(5:ℚ), 10] = none from rfl]
  exact fun h => Option.noConfusion h

/-- C4 amended: for a country with at least 4 weekly observations the
code agrees with the spec's last-4-observations formula, but for a
country with 1 ≤ n < 4 observations the code still computes
(last - first) / max(first, 1) over all n observations instead of
returning unknown. -/
theorem C4_amended (s : List ℚ) :
    (4 ≤ s.length → growth4w s = growth4w_spec s) ∧
    (s ≠ [] → s.length < 4 →
      growth4w s = some ((s.getLastD 0 - s.headD 0) / max (s.headD 0) 1)) := by
  constructor
  · intro h4
    have hlen : (s.drop (s.length - 4)).length = 4 := by
      rw [List.length_drop]
      omega
    obtain ⟨x, xs, hx⟩ := List.exists_cons_of_ne_nil
      (show s.drop (s.length - 4) ≠ [] by
        intro hnil; rw [hnil] at hlen; simp at hlen)
    rw [growth4w, growth4w_spec, if_pos h4, hx]
    simp
  · intro hne hlt
    have hdrop : s.drop (s.length - 4) = s := by
      have : s.length - 4 = 0 := by omega
      rw [this, List.drop_zero]
    obtain ⟨x, xs, hx⟩ := List.exists_cons_of_ne_nil hne
    rw [growth4w, hdrop, hx]
    simp [hx]

/-- C4 witness: the amended theorem at a 5-element series (agrees with
the spec formula) and at the 2-element counterexample series. -/
theorem C4_amended_witness :
    growth4w [1, 2, 3, 4, 5] = growth4w_spec [1, 2, 3, 4, 5] ∧
    growth4w [(5:ℚ), 10] =
      some ((([(5:ℚ), 10].getLastD 0) - ([(5:ℚ), 10].headD 0)) /
        max ([(5:ℚ), 10].headD 0) 1) :=
  ⟨(C4_amended [1, 2, 3, 4, 5]).1 (by norm_num),
    (C4_amended [(5:ℚ), 10]).2 (by simp) (by simp)⟩

/-- Widening a date dimension preserves a passing row. -/
lemma datePass_wider {dr dr' : Option (Int × Int)} {d : Option Int}
    (hw : dateWider dr dr') (h : datePass dr d = true) :
    datePass dr' d = true := by
  cases dr' with
  | none => rfl
  | some p' =>
      obtain ⟨s', e'⟩ := p'
      cases dr with
      | none => exact absurd hw (by simp [dateWider])
      | some p =>
          obtain ⟨s, e⟩ := p
          cases d with
          | none => simp [datePass] at h
          | some x =>
              obtain ⟨hw1, hw2⟩ := hw
              simp only [datePass, Bool.and_eq_true, decide_eq_true_eq] at h ⊢
              exact ⟨le_trans hw1 h.1, le_trans h.2 hw2⟩

/-- Widening a membership dimension preserves a passing row. -/
lemma memberPass_wider {l l' : List String} {v : String}
    (hw : listWider l l') (h : memberPass l v = true) :
    memberPass l' v = true := by
  by_cases hl' : l' = []
  · subst hl'; rfl
  · rcases hw with h' | ⟨hne, hsub⟩
    · exact absurd h' hl'
    · have hv : v ∈ l := by
        unfold memberPass at h
        rw [if_neg (by simpa using hne)] at h
        simpa using h
      have hv' : v ∈ l' := hsub v hv
      unfold memberPass
      rw [if_neg (by simpa using hl')]
      simpa using hv'

/-- The empty selection's mask passes every row. -/
lemma rowMask_empty (r : Row) : rowMask emptySelection r = true := rfl

/-- C7: filtering an already-filtered table with the same selection is a
fixed point — it returns exactly the same rows.  (The `.copy()` in the
source makes the result independent of the base table; the embedding is
pure, so side-effect freedom holds by construction.) -/
theorem C7_filter_idempotent (df : List Row) (sel : Selection) :
    filter_data (filter_data df sel) sel = filter_data df sel := by
  unfold filter_data
  induction df with
  | nil => rfl
  | cons r t ih =>
      by_cases h : rowMask sel r <;> simp [List.filter_cons, h, ih]

/-- C8: widening any dimension of the selection keeps every previously
retained row, and the empty selection returns the table unchanged. -/
theorem C8_filter_monotone (df : List Row) (sel sel' : Selection) (r : Row)
    (hw : SelectionWider sel sel') (hr : r ∈ filter_data df sel) :
    r ∈ filter_data df sel' ∧ filter_data df emptySelection = df := by
  constructor
  · rw [filter_data, List.mem_filter] at hr ⊢
    refine ⟨hr.1, ?_⟩
    have hm := hr.2
    unfold rowMask at hm ⊢
    simp only [Bool.and_eq_true] at hm ⊢
    obtain ⟨⟨⟨h1, h2⟩, h3⟩, h4⟩ := hm
    obtain ⟨w1, w2, w3, w4⟩ := hw
    exact ⟨⟨⟨datePass_wider w1 h1, memberPass_wider w2 h2⟩,
      memberPass_wider w3 h3⟩, memberPass_wider w4 h4⟩
  · exact List.filter_eq_self.mpr (fun a _ => rowMask_empty a)

/-- C8 witness: a concrete table, a narrow and a widened selection. -/
theorem C8_witness :
    (⟨some 5, "A", "X", "n"⟩ : Row) ∈
      filter_data [⟨some 5, "A", "X", "n"⟩, ⟨some 15, "B", "X", "n"⟩]
        ⟨some (0, 20), ["A", "B"], [], []⟩ ∧
    filter_data [(⟨some 5, "A", "X", "n"⟩ : Row), ⟨some 15, "B", "X", "n"⟩]
      emptySelection =
      [⟨some 5, "A", "X", "n"⟩, ⟨some 15, "B", "X", "n"⟩] :=
  C8_filter_monotone
    [⟨some 5, "A", "X", "n"⟩, ⟨some 15, "B", "X", "n"⟩]
    ⟨some (0, 10), ["A"], [], []⟩ ⟨some (0, 20), ["A", "B"], [], []⟩
    ⟨some 5, "A", "X", "n"⟩
    ⟨⟨by norm_num, by norm_num⟩, Or.inr ⟨by simp, by simp⟩,
      Or.inl rfl, Or.inl rfl⟩
    (by simp [filter_data, rowMask, datePass, memberPass])

/-- C9: the date-range test is inclusive on both ends — a row whose
`report_date` equals the start or the end of the selected range, and
which passes the other dimensions, is retained. -/
theorem C9_date_inclusive (df : List Row) (sel : Selection) (s e : Int)
    (r : Row) (hr : r ∈ df) (hdr : sel.date_range = some (s, e)) (hse : s ≤ e)
    (hd : r.report_date = some s ∨ r.report_date = some e)
    (hc : memberPass sel.countries r.country = true)
    (hcl : memberPass sel.clades r.clade = true)
    (hn : memberPass sel.notes r.surveillance_notes = true) :
    r ∈ filter_data df sel := by
  rw [filter_data, List.mem_filter]
  refine ⟨hr, ?_⟩
  unfold rowMask
  rw [hdr]
  rcases hd with h | h <;> simp [datePass, h, hse, hc, hcl, hn]

/-- C9 witness: rows dated exactly at the start and at the end of the
range are both retained. -/
theorem C9_witness :
    (⟨some 0, "A", "X", "n"⟩ : Row) ∈
      filter_data [⟨some 0, "A", "X", "n"⟩, ⟨some 10, "A", "X", "n"⟩]
        ⟨some (0, 10), [], [], []⟩ ∧
    (⟨some 10, "A", "X", "n"⟩ : Row) ∈
      filter_data [⟨some 0, "A", "X", "n"⟩, ⟨some 10, "A", "X", "n"⟩]
        ⟨some (0, 10), [], [], []⟩ :=
  ⟨C9_date_inclusive _ ⟨some (0, 10), [], [], []⟩ 0 10 _
      (by simp) rfl (by norm_num) (Or.inl rfl) rfl rfl rfl,
    C9_date_inclusive _ ⟨some (0, 10), [], [], []⟩ 0 10 _
      (by simp) rfl (by norm_num) (Or.inr rfl) rfl rfl rfl⟩

/-- C10: alias resolution is case-insensitive with the first matching
alias winning: on a source table with columns Country, Date, cases,
Deaths, CFR the loader renames Deaths ↦ deaths and CFR ↦
case_fatality_rate; since case_fatality_rate is then present, the
derived deaths/cases × 100 computation is skipped (source column takes
precedence).  With both "Deaths" and "fatalities" present, the earlier
alias "Deaths" is the one renamed.  Without a CFR source column the
derivation does run. -/
theorem C10_alias_resolution :
    standardize_columns ["Country", "Date", "cases", "Deaths", "CFR"] =
      ["country", "report_date", "confirmed_cases", "deaths",
        "case_fatality_rate"] ∧
    derives_cfr (standardize_columns
      ["Country", "Date", "cases", "Deaths", "CFR"]) = false ∧
    standardize_columns ["Deaths", "fatalities"] = ["deaths", "fatalities"] ∧
    derives_cfr (standardize_columns ["Country", "cases", "Deaths"]) = true := by
  refine ⟨?_, ?_, ?_, ?_⟩ <;> decide

end Mpox
